import Mathlib

/-!
Verification of the slides desktop backend (Rust, `apps/desktop/src-tauri/src`).

This file shallowly embeds the parts of the program relevant to the claims:
* the MCP JSON-RPC dispatcher (`mcp.rs`: `process_request`, `handle_tools_call`,
  `message_handler`),
* the storage operations (`db.rs`: presentations, layout rules, AI provider
  configs), modelled as pure functions over an explicit list of rows,
* the encryption wrapper (`encryption.rs`: `encrypt` / `decrypt`), with the
  external collaborators (the `aes_gcm` AEAD cipher, the `base64` engine and
  the Rust UTF-8 string conversion, all third-party library code outside this
  repository) abstracted as parameters carrying their documented contracts,
* the REST response mapping (`models.rs` / `api.rs`: `LayoutRuleResponse`,
  `AiProviderConfigResponse`, `create_ai_config`, `list_ai_configs`).

Timestamps (`chrono::DateTime<Utc>`) are modelled as `Nat`; `Utc::now()` and
`Uuid::new_v4()` are explicit parameters.  SQLite tables are modelled as lists
of rows in insertion order; `ORDER BY` is modelled by a stable insertion sort.
-/

/-- `serde_json::Value`. -/
inductive Json where
  | null
  | bool (b : Bool)
  | num (n : Int)
  | str (s : String)
  | arr (xs : List Json)
  | obj (fields : List (String × Json))

/-- `Value::get(key)` on an object (`None` on other variants). -/
def Json.getKey : Json → String → Option Json
  | .obj fields, key => fields.lookup key
  | _, _ => none

/-- `Value::as_str()`. -/
def Json.asStr : Json → Option String
  | .str s => some s
  | _ => none

/-- `JsonRpcRequest` from `mcp.rs`.  `id : Option<Value>`: a JSON `null` or a
missing `id` field both deserialize to `none`. -/
structure JsonRpcRequest where
  jsonrpc : String
  id : Option Json
  method : String
  params : Json

/-- `JsonRpcError` from `mcp.rs` (the `data` field is always `None` in the
program, so it is omitted). -/
structure JsonRpcError where
  code : Int
  message : String

/-- `JsonRpcResponse` from `mcp.rs`. -/
structure JsonRpcResponse where
  jsonrpc : String
  id : Option Json
  result : Option Json
  error : Option JsonRpcError

/-- `JsonRpcResponse::success`. -/
def JsonRpcResponse.success (id : Option Json) (result : Json) : JsonRpcResponse :=
  { jsonrpc := "2.0", id := id, result := some result, error := none }

/-- `JsonRpcResponse::error`. -/
def JsonRpcResponse.mkError (id : Option Json) (code : Int) (message : String) : JsonRpcResponse :=
  { jsonrpc := "2.0", id := id, result := none,
    error := some { code := code, message := message } }

/-- `handle_initialize` from `mcp.rs`: static protocol metadata. -/
def handle_initialize (_params : Json) : Except (Int × String) Json :=
  .ok (.obj [
    ("protocolVersion", .str "2024-11-05"),
    ("capabilities", .obj [("tools", .obj [])]),
    ("serverInfo", .obj [("name", .str "slides"), ("version", .str "1.0.0")])])

/-- The names of the thirteen tools dispatched by the `match` in
`handle_tools_call` (`mcp.rs`), in source order. -/
def toolNames : List String :=
  ["list_presentations", "get_presentation", "create_presentation",
   "update_presentation", "delete_presentation", "list_themes", "add_slides",
   "list_media", "upload_media", "delete_media", "list_layout_rules",
   "create_layout_rule", "delete_layout_rule"]

/-- `handle_tools_list` from `mcp.rs` returns the static tool catalog (names,
descriptions and input schemas).  The claims only depend on this call
succeeding, so the catalog value is summarised as the list of tool objects
keyed by the thirteen tool names; the descriptive text is immaterial here. -/
def handle_tools_list : Except (Int × String) Json :=
  .ok (.obj [("tools", .arr (toolNames.map fun n => .obj [("name", .str n)]))])

/-- A tool outcome oracle: abstracts the thirteen `tool_*` implementations in
`mcp.rs`, which run against the database, the filesystem and the network.
Given the tool name and the `arguments` object it returns the
`Result<String, (i32, String)>` the tool produced. -/
def ToolOracle : Type := String → Json → Except (Int × String) String

/-- `handle_tools_call` from `mcp.rs`: extracts the tool `name` (missing name
is a `-32602` error), defaults `arguments` to `{}`, dispatches on the known
tool names (an unknown name is a `-32602` "Unknown tool" error) and wraps a
successful result in a text content block. -/
def handle_tools_call (tool : ToolOracle) (params : Json) : Except (Int × String) Json :=
  match (params.getKey "name").bind Json.asStr with
  | none => .error (-32602, "Missing tool name")
  | some name =>
    let arguments := (params.getKey "arguments").getD (.obj [])
    let result : Except (Int × String) String :=
      if name ∈ toolNames then tool name arguments
      else .error (-32602, "Unknown tool: " ++ name)
    match result with
    | .error e => .error e
    | .ok text =>
      .ok (.obj [("content", .arr [.obj [("type", .str "text"), ("text", .str text)]])])

/-- `process_request` from `mcp.rs`: a request with a null id whose method is
`notifications/initialized` yields no response; otherwise the method is
routed (`initialize`, `tools/list`, `tools/call`, unknown methods give the
`-32601` error) and the outcome is wrapped in exactly one response carrying
the id of the request. -/
def process_request (tool : ToolOracle) (request : JsonRpcRequest) : Option JsonRpcResponse :=
  let id := request.id
  if id.isNone ∧ request.method = "notifications/initialized" then
    none
  else
    let result : Except (Int × String) Json :=
      match request.method with
      | "initialize" => handle_initialize request.params
      | "tools/list" => handle_tools_list
      | "tools/call" => handle_tools_call tool request.params
      | m => .error (-32601, "Method not found: " ++ m)
    some (match result with
      | .ok value => JsonRpcResponse.success id value
      | .error (code, message) => JsonRpcResponse.mkError id code message)

/-- The methods the dispatcher recognizes: the three routed methods plus the
notification method it acknowledges without a reply (`mcp.rs`, the spec §4.1
closed enumeration). -/
def recognizedMethods : List String :=
  ["initialize", "tools/list", "tools/call", "notifications/initialized"]

/-- HTTP status codes returned by `message_handler` (`axum::http::StatusCode`
modelled by its numeric value). -/
def statusAccepted : Nat := 202
def statusNotFound : Nat := 404
def statusInternalServerError : Nat := 500

/-- `message_handler` from `mcp.rs`.  The session registry is modelled as a
map from session token to the state of the outbound queue of that session
(`true` = the SSE consumer still holds the receiver, so `send` succeeds;
`false` = the queue is closed, so `send` fails).  The second component
records what was dispatched: `none` means `process_request` was never
invoked; `some r` means it was invoked and returned `r`. -/
def message_handler (sessions : String → Option Bool) (tool : ToolOracle)
    (session_id : String) (request : JsonRpcRequest) :
    Nat × Option (Option JsonRpcResponse) :=
  match sessions session_id with
  | none => (statusNotFound, none)
  | some queueOpen =>
    let response := process_request tool request
    match response with
    | none => (statusAccepted, some none)
    | some r =>
      if queueOpen then (statusAccepted, some (some r))
      else (statusInternalServerError, some (some r))

/-- `AppError` from `error.rs` (the `Database` variant wraps a `sqlx::Error`;
its payload is modelled as the message string of the error). -/
inductive AppError where
  | Database (msg : String)
  | NotFound (msg : String)
  | BadRequest (msg : String)
  | Forbidden (msg : String)
  | Internal (msg : String)
deriving DecidableEq, Repr

/-- `Presentation` row (`models.rs`); timestamps are abstract `Nat` instants. -/
structure Presentation where
  id : String
  title : String
  content : String
  theme : String
  user_id : String
  created_at : Nat
  updated_at : Nat
deriving DecidableEq, Repr

/-- `UpdatePresentation` DTO (`models.rs`). -/
structure UpdatePresentation where
  title : Option String
  content : Option String
  theme : Option String
deriving DecidableEq, Repr

/-- `LayoutRule` row (`models.rs`): `conditions` and `transform` are stored as
raw JSON strings. -/
structure LayoutRule where
  id : String
  name : String
  display_name : String
  description : Option String
  priority : Int
  enabled : Bool
  is_default : Bool
  user_id : Option String
  conditions : String
  transform : String
  css_content : String
  created_at : Nat
  updated_at : Nat
deriving DecidableEq, Repr

/-- `LayoutRuleResponse` (`models.rs`): the two stored JSON strings decoded
into structured values. -/
structure LayoutRuleResponse where
  id : String
  name : String
  display_name : String
  description : Option String
  priority : Int
  enabled : Bool
  is_default : Bool
  user_id : Option String
  conditions : Json
  transform : Json
  css_content : String
  created_at : Nat
  updated_at : Nat

/-- `AiProviderConfig` row (`models.rs`). -/
structure AiProviderConfig where
  id : String
  provider_name : String
  api_key_encrypted : String
  model : Option String
  base_url : Option String
  user_id : String
  created_at : Nat
  updated_at : Nat
deriving DecidableEq, Repr

/-- `CreateAiProviderConfig` DTO (`models.rs`). -/
structure CreateAiProviderConfig where
  provider_name : String
  api_key : Option String
  model : Option String
  base_url : Option String
deriving DecidableEq, Repr

/-- `AiProviderConfigResponse` (`models.rs`): no credential field, only the
`has_key` flag. -/
structure AiProviderConfigResponse where
  id : String
  provider_name : String
  model : Option String
  base_url : Option String
  has_key : Bool
deriving DecidableEq, Repr

/-- `From<LayoutRule> for LayoutRuleResponse` (`models.rs`): each stored JSON
string is decoded with `serde_json::from_str`, substituting `Value::Null` when
decoding fails.  The decoder (`serde_json`, external library) is the `parse`
parameter, returning `none` exactly on malformed input. -/
def layoutRuleResponse_of (parse : String → Option Json) (rule : LayoutRule) :
    LayoutRuleResponse :=
  { id := rule.id
    name := rule.name
    display_name := rule.display_name
    description := rule.description
    priority := rule.priority
    enabled := rule.enabled
    is_default := rule.is_default
    user_id := rule.user_id
    conditions := (parse rule.conditions).getD .null
    transform := (parse rule.transform).getD .null
    css_content := rule.css_content
    created_at := rule.created_at
    updated_at := rule.updated_at }

/-- `From<AiProviderConfig> for AiProviderConfigResponse` (`models.rs`): drops
`api_key_encrypted` and sets `has_key` to the constant `true`. -/
def aiProviderConfigResponse_of (config : AiProviderConfig) : AiProviderConfigResponse :=
  { id := config.id
    provider_name := config.provider_name
    model := config.model
    base_url := config.base_url
    has_key := true }

/-- Stable insertion step for modelling SQL `ORDER BY`. -/
def insertByLe {α : Type} (le : α → α → Bool) (a : α) : List α → List α
  | [] => [a]
  | b :: bs => if le a b then a :: b :: bs else b :: insertByLe le a bs

/-- Sort for modelling SQL `ORDER BY` (insertion sort; executable and
membership-preserving, which is all the claims need). -/
def sortByLe {α : Type} (le : α → α → Bool) (s : List α) : List α :=
  s.foldr (insertByLe le) []

/-- `Database::get_presentation` (`db.rs`): `SELECT ... WHERE id = ?` with
`fetch_optional` (first matching row), `NotFound` when absent.  The table is
the list `s` of rows. -/
def get_presentation (s : List Presentation) (id : String) : Except AppError Presentation :=
  match s.find? (fun p => p.id = id) with
  | some p => .ok p
  | none => .error (.NotFound ("Presentation " ++ id ++ " not found"))

/-- `Database::update_presentation` (`db.rs`): loads the existing row (erroring
without touching the table when it is absent), fills each omitted field from
the existing row (`Option::unwrap_or`), runs
`UPDATE ... SET title, content, theme, updated_at WHERE id = ?`, and re-reads
the row.  Returns the table after the statement and the returned result. -/
def update_presentation (s : List Presentation) (id : String) (data : UpdatePresentation)
    (now : Nat) : List Presentation × Except AppError Presentation :=
  match get_presentation s id with
  | .error e => (s, .error e)
  | .ok existing =>
    let title := data.title.getD existing.title
    let content := data.content.getD existing.content
    let theme := data.theme.getD existing.theme
    let s' := s.map fun p =>
      if p.id = id then
        { p with title := title, content := content, theme := theme, updated_at := now }
      else p
    (s', get_presentation s' id)

/-- `Database::delete_presentation` (`db.rs`): `DELETE ... WHERE id = ?`;
`rows_affected() == 0` yields `NotFound`.  Returns the table after the
statement and the result. -/
def delete_presentation (s : List Presentation) (id : String) :
    List Presentation × Except AppError Unit :=
  let s' := s.filter (fun p => ¬ p.id = id)
  if s'.length = s.length then
    (s', .error (.NotFound ("Presentation " ++ id ++ " not found")))
  else
    (s', .ok ())

/-- `Database::list_layout_rules` (`db.rs`): `SELECT ... ORDER BY priority`. -/
def list_layout_rules (s : List LayoutRule) : List LayoutRule :=
  sortByLe (fun a b => a.priority ≤ b.priority) s

/-- `Database::delete_layout_rule` (`db.rs`):
`DELETE ... WHERE id = ? AND is_default = 0`; `rows_affected() == 0` yields
`BadRequest`.  Returns the table after the statement and the result. -/
def delete_layout_rule (s : List LayoutRule) (id : String) :
    List LayoutRule × Except AppError Unit :=
  let s' := s.filter (fun r => ¬ (r.id = id ∧ r.is_default = false))
  if s'.length = s.length then
    (s', .error (.BadRequest "Cannot delete default layout rule or rule not found"))
  else
    (s', .ok ())

/-- `Database::get_ai_provider_config` (`db.rs`):
`SELECT ... WHERE user_id = "local" AND provider_name = ?` with
`fetch_optional`. -/
def get_ai_provider_config (s : List AiProviderConfig) (provider_name : String) :
    Option AiProviderConfig :=
  s.find? (fun c => c.user_id = "local" ∧ c.provider_name = provider_name)

/-- `Database::list_ai_provider_configs` (`db.rs`):
`SELECT ... WHERE user_id = "local" ORDER BY provider_name`. -/
def list_ai_provider_configs (s : List AiProviderConfig) : List AiProviderConfig :=
  sortByLe (fun a b => a.provider_name ≤ b.provider_name)
    (s.filter (fun c => c.user_id = "local"))

/-- `Database::upsert_ai_provider_config` (`db.rs`): when a config for the
provider name exists, `UPDATE ... SET api_key_encrypted, model, base_url,
updated_at WHERE id = existing.id` and return the record rebuilt with the
original `created_at`; otherwise insert a fresh row (`new_id` stands for
`Uuid::new_v4()`) timestamped `now`.  Returns the table after the statement
and the returned record. -/
def upsert_ai_provider_config (s : List AiProviderConfig) (data : CreateAiProviderConfig)
    (api_key_encrypted : String) (now : Nat) (new_id : String) :
    List AiProviderConfig × AiProviderConfig :=
  match get_ai_provider_config s data.provider_name with
  | some existing =>
    let s' := s.map fun c =>
      if c.id = existing.id then
        { c with api_key_encrypted := api_key_encrypted, model := data.model,
                 base_url := data.base_url, updated_at := now }
      else c
    (s', { id := existing.id
           provider_name := data.provider_name
           api_key_encrypted := api_key_encrypted
           model := data.model
           base_url := data.base_url
           user_id := "local"
           created_at := existing.created_at
           updated_at := now })
  | none =>
    let inserted : AiProviderConfig :=
      { id := new_id
        provider_name := data.provider_name
        api_key_encrypted := api_key_encrypted
        model := data.model
        base_url := data.base_url
        user_id := "local"
        created_at := now
        updated_at := now }
    (s ++ [inserted], inserted)

/-- `NONCE_SIZE` from `encryption.rs`. -/
def NONCE_SIZE : Nat := 12

/-- The external collaborators of `encryption.rs`, all third-party library
code outside this repository: the Rust string/UTF-8 conversions (`as_bytes`,
`String::from_utf8`), the `base64` standard engine, and the `aes_gcm`
AES-256-GCM cipher (`Aes256Gcm::new_from_slice` on the fixed 32-byte key from
`get_key` is infallible and is folded into the two AEAD operations, which take
the key, the nonce and the input byte string).  `α` is the type of Rust
strings, `β` the type of base64 text; bytes are `List Nat`.  Library failures
carry their message as a `String`, wrapped into `AppError::Internal` by the
repository code. -/
structure CryptoEnv (α β : Type) where
  asBytes : α → List Nat
  fromUtf8 : List Nat → Except String α
  b64encode : List Nat → β
  b64decode : β → Except String (List Nat)
  aeadEncrypt : List Nat → List Nat → List Nat → Except String (List Nat)
  aeadDecrypt : List Nat → List Nat → List Nat → Except String (List Nat)

/-- Documented contract of the `base64` engine: decoding inverts encoding. -/
def CryptoEnv.LawfulB64 {α β : Type} (env : CryptoEnv α β) : Prop :=
  ∀ bs, env.b64decode (env.b64encode bs) = .ok bs

/-- Documented contract of the `aes_gcm` AEAD: decrypting a produced
ciphertext under the same key and nonce returns the plaintext. -/
def CryptoEnv.LawfulAead {α β : Type} (env : CryptoEnv α β) : Prop :=
  ∀ key nonce pt ct, env.aeadEncrypt key nonce pt = .ok ct →
    env.aeadDecrypt key nonce ct = .ok pt

/-- Documented contract of Rust strings: `String::from_utf8` inverts
`str::as_bytes`. -/
def CryptoEnv.LawfulUtf8 {α β : Type} (env : CryptoEnv α β) : Prop :=
  ∀ s, env.fromUtf8 (env.asBytes s) = .ok s

/-- `encrypt` from `encryption.rs`: AEAD-encrypt the plaintext bytes under the
derived key and a random 12-byte nonce (`nonce_bytes`, a parameter here), then
base64-encode `nonce ++ ciphertext`. -/
def encrypt {α β : Type} (env : CryptoEnv α β) (key : List Nat) (nonce_bytes : List Nat)
    (plaintext : α) : Except AppError β :=
  match env.aeadEncrypt key nonce_bytes (env.asBytes plaintext) with
  | .error e => .error (.Internal ("Encryption failed: " ++ e))
  | .ok ciphertext => .ok (env.b64encode (nonce_bytes ++ ciphertext))

/-- `decrypt` from `encryption.rs`: base64-decode, reject inputs shorter than
the nonce, `split_at(NONCE_SIZE)` into nonce and ciphertext, AEAD-decrypt and
re-validate UTF-8. -/
def decrypt {α β : Type} (env : CryptoEnv α β) (key : List Nat) (encrypted : β) :
    Except AppError α :=
  match env.b64decode encrypted with
  | .error e => .error (.Internal ("Base64 decode failed: " ++ e))
  | .ok combined =>
    if combined.length < NONCE_SIZE then
      .error (.Internal "Invalid encrypted data")
    else
      let nonce_bytes := combined.take NONCE_SIZE
      let ciphertext := combined.drop NONCE_SIZE
      match env.aeadDecrypt key nonce_bytes ciphertext with
      | .error e => .error (.Internal ("Decryption failed: " ++ e))
      | .ok plaintext =>
        match env.fromUtf8 plaintext with
        | .error e => .error (.Internal ("UTF-8 decode failed: " ++ e))
        | .ok s => .ok s

/-- `list_ai_configs` handler (`api.rs`): lists the stored configs and maps
each through `AiProviderConfigResponse::from`. -/
def list_ai_configs (s : List AiProviderConfig) : List AiProviderConfigResponse :=
  (list_ai_provider_configs s).map aiProviderConfigResponse_of

/-- `create_ai_config` handler (`api.rs`): requires an API key or a base URL,
substitutes the placeholder `"not-needed"` for a missing key, encrypts the
effective key (`encryptFn` is `encryption::encrypt` with its ambient key and
fresh nonce) and upserts the config, returning its response form. -/
def create_ai_config (encryptFn : String → Except AppError String)
    (s : List AiProviderConfig) (data : CreateAiProviderConfig) (now : Nat)
    (new_id : String) : List AiProviderConfig × Except AppError AiProviderConfigResponse :=
  if data.api_key = none ∧ data.base_url = none then
    (s, .error (.BadRequest "apiKey or baseUrl required"))
  else
    let effective_api_key := data.api_key.getD "not-needed"
    match encryptFn effective_api_key with
    | .error e => (s, .error e)
    | .ok api_key_encrypted =>
      let result := upsert_ai_provider_config s data api_key_encrypted now new_id
      (result.1, .ok (aiProviderConfigResponse_of result.2))

theorem find?_map_pres {α : Type} (g : α → α) (p : α → Bool)
    (h : ∀ a, p (g a) = p a) (s : List α) :
    (s.map g).find? p = (s.find? p).map g := by
  induction s with
  | nil => rfl
  | cons a t ih =>
    simp only [List.map_cons, List.find?, h a]
    cases hpa : p a
    · simpa [hpa] using ih
    · rfl

theorem mem_insertByLe {α : Type} (le : α → α → Bool) (a b : α) (s : List α) :
    b ∈ insertByLe le a s ↔ b = a ∨ b ∈ s := by
  induction s with
  | nil => simp [insertByLe]
  | cons c t ih =>
    simp only [insertByLe]
    split
    · simp
    · simp only [List.mem_cons, ih]
      tauto

theorem length_insertByLe {α : Type} (le : α → α → Bool) (a : α) (s : List α) :
    (insertByLe le a s).length = s.length + 1 := by
  induction s with
  | nil => rfl
  | cons c t ih =>
    simp only [insertByLe]
    split
    · simp
    · simp [ih]

theorem mem_sortByLe {α : Type} (le : α → α → Bool) (b : α) (s : List α) :
    b ∈ sortByLe le s ↔ b ∈ s := by
  induction s with
  | nil => simp [sortByLe]
  | cons c t ih =>
    simp only [sortByLe, List.foldr] at ih ⊢
    rw [mem_insertByLe, ih, List.mem_cons]

theorem length_sortByLe {α : Type} (le : α → α → Bool) (s : List α) :
    (sortByLe le s).length = s.length := by
  induction s with
  | nil => rfl
  | cons c t ih =>
    simp only [sortByLe, List.foldr] at ih ⊢
    rw [length_insertByLe, ih]
    simp

/-- Claim C1: for every JSON-RPC request processed by the dispatcher, if the
correlation identifier of the request is non-null then processing produces exactly
one response (success or error); if the identifier is null and the method is
the notification method `notifications/initialized`, processing produces no
response. -/
theorem c1_dispatcher_response_shape (tool : ToolOracle) (request : JsonRpcRequest) :
    (request.id ≠ none → ∃ r, process_request tool request = some r) ∧
    (request.id = none → request.method = "notifications/initialized" →
      process_request tool request = none) := by
  constructor
  · intro hid
    unfold process_request
    rw [if_neg]
    · exact ⟨_, rfl⟩
    · rintro ⟨h1, _⟩
      cases hcase : request.id with
      | none => exact hid hcase
      | some v => rw [hcase] at h1; simp at h1
  · intro h1 h2
    unfold process_request
    rw [if_pos ⟨by rw [h1]; rfl, h2⟩]

/-- Witness for C1 at a concrete request each way: an `initialize` request
with id `1` gets a response; a null-id `notifications/initialized`
notification gets none. -/
theorem c1_dispatcher_response_shape_witness :
    (∃ r, process_request (fun _ _ => .ok "")
      ⟨"2.0", some (.num 1), "initialize", .obj []⟩ = some r) ∧
    process_request (fun _ _ => .ok "")
      ⟨"2.0", none, "notifications/initialized", .obj []⟩ = none :=
  ⟨(c1_dispatcher_response_shape _ _).1 (by simp),
   (c1_dispatcher_response_shape _ _).2 rfl rfl⟩

theorem handle_tools_call_unknown_tool (tool : ToolOracle) (params : Json) (name : String)
    (hname : (params.getKey "name").bind Json.asStr = some name)
    (hnotool : name ∉ toolNames) :
    handle_tools_call tool params = .error (-32602, "Unknown tool: " ++ name) := by
  unfold handle_tools_call
  rw [hname]
  dsimp only
  rw [if_neg hnotool]

/-- Claim C2: a request whose method is not one of the recognized methods gets
an error response with code `-32601`; a `tools/call` request naming an unknown
tool gets an error response with code `-32602`; both responses carry the
correlation identifier of the request. -/
theorem c2_unknown_method_unknown_tool (tool : ToolOracle) (request : JsonRpcRequest) :
    (request.method ∉ recognizedMethods →
      process_request tool request =
        some (JsonRpcResponse.mkError request.id (-32601)
          ("Method not found: " ++ request.method))) ∧
    (∀ name, request.method = "tools/call" →
      (request.params.getKey "name").bind Json.asStr = some name →
      name ∉ toolNames →
      process_request tool request =
        some (JsonRpcResponse.mkError request.id (-32602) ("Unknown tool: " ++ name))) := by
  constructor
  · intro hm
    have hne : request.method ≠ "notifications/initialized" := by
      intro h; exact hm (by rw [h]; simp [recognizedMethods])
    unfold process_request
    rw [if_neg (by rintro ⟨_, h2⟩; exact hne h2)]
    split
    · exact absurd (by simp [recognizedMethods, *]) hm
    · exact absurd (by simp [recognizedMethods, *]) hm
    · exact absurd (by simp [recognizedMethods, *]) hm
    · rfl
  · intro name hm hname hnotool
    unfold process_request
    rw [if_neg (by rintro ⟨_, h2⟩; rw [hm] at h2; simp at h2)]
    rw [hm]
    dsimp only
    rw [handle_tools_call_unknown_tool tool request.params name hname hnotool]
    rfl

/-- Witness for C2 at concrete requests: method `"no/such"` gives `-32601`
with request id `7`; a `tools/call` of tool `"nope"` gives `-32602`
with request id `8`. -/
theorem c2_unknown_method_unknown_tool_witness :
    process_request (fun _ _ => .ok "") ⟨"2.0", some (.num 7), "no/such", .obj []⟩ =
      some (JsonRpcResponse.mkError (some (.num 7)) (-32601) "Method not found: no/such") ∧
    process_request (fun _ _ => .ok "")
        ⟨"2.0", some (.num 8), "tools/call", .obj [("name", .str "nope")]⟩ =
      some (JsonRpcResponse.mkError (some (.num 8)) (-32602) "Unknown tool: nope") :=
  ⟨(c2_unknown_method_unknown_tool _ _).1 (by decide),
   (c2_unknown_method_unknown_tool _ _).2 "nope" rfl rfl (by decide)⟩

/-- Claim C3: decrypting the result of encrypting a non-empty string under the
same key returns the original string exactly, for every nonce value (the
source draws a random 12-byte nonce).  The external cipher, base64 engine and
UTF-8 codec enter through their documented contracts. -/
theorem c3_encrypt_decrypt_roundtrip {α β : Type} (env : CryptoEnv α β)
    (hb : env.LawfulB64) (ha : env.LawfulAead) (hu : env.LawfulUtf8)
    (key nonce_bytes : List Nat) (hn : nonce_bytes.length = NONCE_SIZE)
    (plaintext : α) (hne : env.asBytes plaintext ≠ [])
    (e : β) (henc : encrypt env key nonce_bytes plaintext = .ok e) :
    decrypt env key e = .ok plaintext := by
  unfold encrypt at henc
  cases hct : env.aeadEncrypt key nonce_bytes (env.asBytes plaintext) with
  | error msg => rw [hct] at henc; exact absurd henc (by simp)
  | ok ciphertext =>
    rw [hct] at henc
    have he : e = env.b64encode (nonce_bytes ++ ciphertext) := by
      cases henc; rfl
    subst he
    unfold decrypt
    rw [hb (nonce_bytes ++ ciphertext)]
    dsimp only
    rw [if_neg (by rw [List.length_append, hn]; simp only [NONCE_SIZE]; omega)]
    have htake : (nonce_bytes ++ ciphertext).take NONCE_SIZE = nonce_bytes := by
      rw [← hn]; exact List.take_left nonce_bytes ciphertext
    have hdrop : (nonce_bytes ++ ciphertext).drop NONCE_SIZE = ciphertext := by
      rw [← hn]; exact List.drop_left nonce_bytes ciphertext
    rw [htake, hdrop, ha key nonce_bytes (env.asBytes plaintext) ciphertext hct]
    dsimp only
    rw [hu plaintext]

/-- Witness for C3: a concrete crypto environment over byte lists satisfying
the contracts, the all-zero nonce, and plaintext `[1, 2, 3]`. -/
theorem c3_encrypt_decrypt_roundtrip_witness :
    decrypt (⟨fun a => a, .ok, fun a => a, .ok, fun _ _ p => .ok p, fun _ _ c => .ok c⟩ :
        CryptoEnv (List Nat) (List Nat)) []
      (List.replicate 12 0 ++ [1, 2, 3]) = .ok [1, 2, 3] :=
  c3_encrypt_decrypt_roundtrip _ (fun _ => rfl) (fun _ _ _ _ h => by cases h; rfl)
    (fun _ => rfl) [] (List.replicate 12 0) (by decide) [1, 2, 3] (by decide)
    (List.replicate 12 0 ++ [1, 2, 3]) rfl

/-- Claim C4: updating a stored presentation replaces exactly the provided
fields, keeps every omitted field at its prior stored value
(`Option.getD` captures both cases), leaves `created_at` and the owner tag
alone, and stamps `updated_at` with the update time — both in the returned
record and in the stored row a subsequent get sees. -/
theorem c4_update_presentation_frame (s : List Presentation) (id : String)
    (data : UpdatePresentation) (now : Nat) (p : Presentation)
    (hget : get_presentation s id = .ok p) :
    ∃ q, (update_presentation s id data now).2 = .ok q ∧
      get_presentation (update_presentation s id data now).1 id = .ok q ∧
      q.title = data.title.getD p.title ∧
      q.content = data.content.getD p.content ∧
      q.theme = data.theme.getD p.theme ∧
      q.user_id = p.user_id ∧
      q.created_at = p.created_at ∧
      q.updated_at = now := by
  have hfind : s.find? (fun x => x.id = id) = some p := by
    unfold get_presentation at hget
    cases hf : s.find? (fun x => x.id = id) with
    | none => rw [hf] at hget; exact absurd hget (by simp)
    | some r => rw [hf] at hget; cases hget; rfl
  have hpid : p.id = id := by simpa using List.find?_some hfind
  unfold update_presentation
  rw [hget]
  dsimp only
  refine ⟨{ p with
              title := data.title.getD p.title
              content := data.content.getD p.content
              theme := data.theme.getD p.theme
              updated_at := now }, ?_, ?_, rfl, rfl, rfl, rfl, rfl, rfl⟩ <;>
  · unfold get_presentation
    rw [find?_map_pres _ _ (fun a => by by_cases h : a.id = id <;> simp [h]) s, hfind]
    simp [hpid]

/-- Witness for C4: a one-row table, an update providing only the title. -/
theorem c4_update_presentation_frame_witness :
    ∃ q, (update_presentation [⟨"a", "t", "c", "default", "local", 0, 0⟩] "a"
            ⟨some "t2", none, none⟩ 5).2 = .ok q ∧
      get_presentation (update_presentation [⟨"a", "t", "c", "default", "local", 0, 0⟩] "a"
            ⟨some "t2", none, none⟩ 5).1 "a" = .ok q ∧
      q.title = (some "t2").getD "t" ∧
      q.content = (Option.getD none "c") ∧
      q.theme = (Option.getD none "default") ∧
      q.user_id = "local" ∧
      q.created_at = 0 ∧
      q.updated_at = 5 :=
  c4_update_presentation_frame _ "a" _ 5 ⟨"a", "t", "c", "default", "local", 0, 0⟩ rfl

/-- Claim C5: creating an AI provider config again for an already-configured
provider name overwrites the credential, model and base-url fields with the
new values while the resulting record — returned and stored — keeps the
creation timestamp of the original record. -/
theorem c5_upsert_ai_config_preserves_created_at (s : List AiProviderConfig)
    (data : CreateAiProviderConfig) (enc : String) (now : Nat) (new_id : String)
    (existing : AiProviderConfig)
    (hex : get_ai_provider_config s data.provider_name = some existing) :
    (upsert_ai_provider_config s data enc now new_id).2.created_at = existing.created_at ∧
    (upsert_ai_provider_config s data enc now new_id).2.api_key_encrypted = enc ∧
    (upsert_ai_provider_config s data enc now new_id).2.model = data.model ∧
    (upsert_ai_provider_config s data enc now new_id).2.base_url = data.base_url ∧
    get_ai_provider_config (upsert_ai_provider_config s data enc now new_id).1
        data.provider_name =
      some { existing with
               api_key_encrypted := enc
               model := data.model
               base_url := data.base_url
               updated_at := now } := by
  unfold upsert_ai_provider_config
  rw [hex]
  dsimp only
  refine ⟨rfl, rfl, rfl, rfl, ?_⟩
  unfold get_ai_provider_config at hex ⊢
  rw [find?_map_pres _ _ (fun a => by by_cases h : a.id = existing.id <;> simp [h]) s, hex]
  simp

/-- Witness for C5: one stored `openai` config with creation time `3`,
re-created with a fresh key, model and base URL at time `9`. -/
theorem c5_upsert_ai_config_preserves_created_at_witness :
    (upsert_ai_provider_config [⟨"i1", "openai", "old", none, none, "local", 3, 3⟩]
        ⟨"openai", some "k", some "m", some "u"⟩ "newenc" 9 "i2").2.created_at = 3 ∧
    (upsert_ai_provider_config [⟨"i1", "openai", "old", none, none, "local", 3, 3⟩]
        ⟨"openai", some "k", some "m", some "u"⟩ "newenc" 9 "i2").2.api_key_encrypted = "newenc" ∧
    (upsert_ai_provider_config [⟨"i1", "openai", "old", none, none, "local", 3, 3⟩]
        ⟨"openai", some "k", some "m", some "u"⟩ "newenc" 9 "i2").2.model = some "m" ∧
    (upsert_ai_provider_config [⟨"i1", "openai", "old", none, none, "local", 3, 3⟩]
        ⟨"openai", some "k", some "m", some "u"⟩ "newenc" 9 "i2").2.base_url = some "u" ∧
    get_ai_provider_config (upsert_ai_provider_config
        [⟨"i1", "openai", "old", none, none, "local", 3, 3⟩]
        ⟨"openai", some "k", some "m", some "u"⟩ "newenc" 9 "i2").1 "openai" =
      some ⟨"i1", "openai", "newenc", some "m", some "u", "local", 3, 9⟩ :=
  c5_upsert_ai_config_preserves_created_at _ ⟨"openai", some "k", some "m", some "u"⟩
    "newenc" 9 "i2" ⟨"i1", "openai", "old", none, none, "local", 3, 3⟩ rfl

/-- Claim C6: deleting an id that is not stored returns a not-found error and
leaves storage unchanged; deleting a stored id succeeds, and a subsequent get
of the same id returns a not-found error. -/
theorem c6_delete_presentation_semantics (s : List Presentation) (id : String) :
    ((∀ p ∈ s, p.id ≠ id) →
      delete_presentation s id =
        (s, .error (.NotFound ("Presentation " ++ id ++ " not found")))) ∧
    ((∃ p ∈ s, p.id = id) →
      (delete_presentation s id).2 = .ok () ∧
      get_presentation (delete_presentation s id).1 id =
        .error (.NotFound ("Presentation " ++ id ++ " not found"))) := by
  constructor
  · intro h
    unfold delete_presentation
    have hfe : s.filter (fun p => ¬ p.id = id) = s :=
      List.filter_eq_self.mpr (fun a ha => by simpa using h a ha)
    rw [hfe, if_pos rfl]
  · rintro ⟨p, hp, hpid⟩
    unfold delete_presentation
    have hlt : (s.filter (fun x => ¬ x.id = id)).length < s.length :=
      List.length_filter_lt_length_iff_exists.mpr ⟨p, hp, by simp [hpid]⟩
    rw [if_neg (Nat.ne_of_lt hlt)]
    refine ⟨rfl, ?_⟩
    unfold get_presentation
    rw [List.find?_eq_none.mpr (fun x hx => by
      have hkeep := (List.mem_filter.mp hx).2
      simp only [decide_not, Bool.not_eq_true'] at hkeep
      simpa using hkeep)]

/-- Witness for C6: a one-row table; deleting the absent id `"b"` errors and
leaves the row, deleting the present id `"a"` removes it. -/
theorem c6_delete_presentation_semantics_witness :
    delete_presentation [⟨"a", "t", "c", "default", "local", 0, 0⟩] "b" =
      ([⟨"a", "t", "c", "default", "local", 0, 0⟩],
        .error (.NotFound "Presentation b not found")) ∧
    ((delete_presentation [⟨"a", "t", "c", "default", "local", 0, 0⟩] "a").2 = .ok () ∧
      get_presentation (delete_presentation
          [⟨"a", "t", "c", "default", "local", 0, 0⟩] "a").1 "a" =
        .error (.NotFound "Presentation a not found")) :=
  ⟨(c6_delete_presentation_semantics _ "b").1 (by decide),
   (c6_delete_presentation_semantics _ "a").2
     ⟨⟨"a", "t", "c", "default", "local", 0, 0⟩, by simp, rfl⟩⟩

/-- Claim C7: submitting with an unregistered session token fails with the
not-found status and the payload is never dispatched; submitting with a
registered token whose outbound queue is closed, a request that produces a
reply, fails with the internal-error status. -/
theorem c7_message_handler_statuses (sessions : String → Option Bool) (tool : ToolOracle)
    (session_id : String) (request : JsonRpcRequest) :
    (sessions session_id = none →
      message_handler sessions tool session_id request = (statusNotFound, none)) ∧
    (sessions session_id = some false →
      (process_request tool request).isSome →
      (message_handler sessions tool session_id request).1 = statusInternalServerError) := by
  constructor
  · intro h
    unfold message_handler
    rw [h]
  · intro h hsome
    unfold message_handler
    rw [h]
    dsimp only
    cases hr : process_request tool request with
    | none => rw [hr] at hsome; exact absurd hsome (by simp)
    | some r => rfl

/-- Witness for C7: a registry holding one session `"s1"` with a closed
queue; token `"s2"` is unknown (not-found, nothing dispatched), and an
`initialize` request to `"s1"` hits the internal-error status. -/
theorem c7_message_handler_statuses_witness :
    message_handler (fun t => if t = "s1" then some false else none) (fun _ _ => .ok "")
        "s2" ⟨"2.0", some (.num 1), "initialize", .obj []⟩ = (statusNotFound, none) ∧
    (message_handler (fun t => if t = "s1" then some false else none) (fun _ _ => .ok "")
        "s1" ⟨"2.0", some (.num 1), "initialize", .obj []⟩).1 = statusInternalServerError :=
  ⟨(c7_message_handler_statuses _ _ "s2" _).1 (by decide),
   (c7_message_handler_statuses _ _ "s1" _).2 (by decide) (by decide)⟩

/-- Claim C8: a layout rule whose default-flag is set cannot be deleted — the
operation fails with an error and the table is unchanged (ids are unique, the
column being the primary key) — and any rule the delete operation does remove
has its default-flag unset. -/
theorem c8_default_layout_rule_undeletable (s : List LayoutRule) (id : String)
    (r : LayoutRule) (hnd : (s.map (fun x => x.id)).Nodup) (hr : r ∈ s)
    (hid : r.id = id) (hdef : r.is_default = true) :
    delete_layout_rule s id =
      (s, .error (.BadRequest "Cannot delete default layout rule or rule not found")) ∧
    ∀ (s₂ : List LayoutRule) (id₂ : String) (x : LayoutRule), x ∈ s₂ →
      x ∉ (delete_layout_rule s₂ id₂).1 → x.is_default = false := by
  constructor
  · unfold delete_layout_rule
    have hfe : s.filter (fun x => ¬ (x.id = id ∧ x.is_default = false)) = s := by
      refine List.filter_eq_self.mpr (fun a ha => ?_)
      simp only [decide_eq_true_eq]
      rintro ⟨haid, hadef⟩
      have hae : a = r :=
        List.inj_on_of_nodup_map hnd ha hr (by rw [haid, hid])
      rw [hae, hdef] at hadef
      exact absurd hadef (by simp)
    rw [hfe, if_pos rfl]
  · intro s₂ id₂ x hx hnx
    have hfst : (delete_layout_rule s₂ id₂).1 =
        s₂.filter (fun y => ¬ (y.id = id₂ ∧ y.is_default = false)) := by
      unfold delete_layout_rule
      dsimp only
      split <;> rfl
    rw [hfst] at hnx
    have hpred : ¬ ¬ (x.id = id₂ ∧ x.is_default = false) := by
      intro hp
      exact hnx (List.mem_filter.mpr ⟨hx, by simp only [decide_eq_true_eq]; exact hp⟩)
    exact (not_not.mp hpred).2

/-- Witness for C8: a one-row table holding a default rule; deleting it fails
and leaves the table unchanged. -/
theorem c8_default_layout_rule_undeletable_witness :
    delete_layout_rule
        [⟨"r1", "hero", "Hero", none, 20, true, true, none, "\x7b\x7d", "\x7b\x7d", "", 0, 0⟩] "r1" =
      ([⟨"r1", "hero", "Hero", none, 20, true, true, none, "\x7b\x7d", "\x7b\x7d", "", 0, 0⟩],
        .error (.BadRequest "Cannot delete default layout rule or rule not found")) ∧
    ∀ (s₂ : List LayoutRule) (id₂ : String) (x : LayoutRule), x ∈ s₂ →
      x ∉ (delete_layout_rule s₂ id₂).1 → x.is_default = false :=
  c8_default_layout_rule_undeletable _ "r1"
    ⟨"r1", "hero", "Hero", none, 20, true, true, none, "\x7b\x7d", "\x7b\x7d", "", 0, 0⟩
    (by simp) (by simp) rfl rfl

/-- Claim C9: listing layout rules with decoded structured fields returns
every stored rule even when the conditions of a rule or transform string is
malformed: the malformed field decodes to null in the response field of that rule and no
rule is dropped (the listing length matches the table). -/
theorem c9_layout_listing_tolerates_malformed (parse : String → Option Json)
    (s : List LayoutRule) :
    ((list_layout_rules s).map (layoutRuleResponse_of parse)).length = s.length ∧
    ∀ r ∈ s,
      layoutRuleResponse_of parse r ∈
        (list_layout_rules s).map (layoutRuleResponse_of parse) ∧
      (parse r.conditions = none → (layoutRuleResponse_of parse r).conditions = .null) ∧
      (parse r.transform = none → (layoutRuleResponse_of parse r).transform = .null) := by
  refine ⟨?_, fun r hr => ⟨?_, fun h => ?_, fun h => ?_⟩⟩
  · rw [List.length_map]
    exact length_sortByLe _ s
  · exact List.mem_map.mpr ⟨r, (mem_sortByLe _ r s).mpr hr, rfl⟩
  · simp [layoutRuleResponse_of, h]
  · simp [layoutRuleResponse_of, h]

/-- Witness for C9: a two-row table where the conditions string of one rule is
malformed (the decoder rejects everything here), instantiated at that rule. -/
theorem c9_layout_listing_tolerates_malformed_witness :
    ((list_layout_rules
        [⟨"r1", "a", "A", none, 10, true, true, none, "nonsense", "\x7b\x7d", "", 0, 0⟩,
         ⟨"r2", "b", "B", none, 20, true, false, none, "\x7b\x7d", "\x7b\x7d", "", 0, 0⟩]).map
          (layoutRuleResponse_of (fun _ => none))).length = 2 ∧
    (layoutRuleResponse_of (fun _ => none)
        ⟨"r1", "a", "A", none, 10, true, true, none, "nonsense", "\x7b\x7d", "", 0, 0⟩ ∈
      (list_layout_rules
        [⟨"r1", "a", "A", none, 10, true, true, none, "nonsense", "\x7b\x7d", "", 0, 0⟩,
         ⟨"r2", "b", "B", none, 20, true, false, none, "\x7b\x7d", "\x7b\x7d", "", 0, 0⟩]).map
          (layoutRuleResponse_of (fun _ => none)) ∧
      ((fun (_ : String) => (none : Option Json)) "nonsense" = none →
        (layoutRuleResponse_of (fun _ => none)
          ⟨"r1", "a", "A", none, 10, true, true, none, "nonsense", "\x7b\x7d", "", 0, 0⟩).conditions =
          .null) ∧
      ((fun (_ : String) => (none : Option Json)) "\x7b\x7d" = none →
        (layoutRuleResponse_of (fun _ => none)
          ⟨"r1", "a", "A", none, 10, true, true, none, "nonsense", "\x7b\x7d", "", 0, 0⟩).transform =
          .null)) :=
  ⟨(c9_layout_listing_tolerates_malformed (fun _ => none) _).1,
   (c9_layout_listing_tolerates_malformed (fun _ => none) _).2 _ (by simp)⟩

/-- Claim C10: every AI provider config the list operation returns carries
only the `has_key` flag (the response type has no credential field) and that
flag is the constant `true` — including a config created with only a base
URL, whose stored credential is the encryption of the placeholder
`"not-needed"` — so the flag never distinguishes a real credential from the
placeholder. -/
theorem c10_has_key_always_true (s : List AiProviderConfig)
    (encryptFn : String → Except AppError String)
    (data : CreateAiProviderConfig) (now : Nat) (new_id : String) (enc : String)
    (hkey : data.api_key = none) (hurl : data.base_url ≠ none)
    (henc : encryptFn "not-needed" = .ok enc) :
    (∀ resp ∈ list_ai_configs s, resp.has_key = true) ∧
    (∃ cfg, (create_ai_config encryptFn s data now new_id).2 =
        .ok (aiProviderConfigResponse_of cfg) ∧
      cfg.api_key_encrypted = enc ∧
      cfg ∈ (create_ai_config encryptFn s data now new_id).1 ∧
      (aiProviderConfigResponse_of cfg).has_key = true) ∧
    (∀ resp ∈ list_ai_configs (create_ai_config encryptFn s data now new_id).1,
      resp.has_key = true) := by
  refine ⟨fun resp hresp => ?_, ?_, fun resp hresp => ?_⟩
  · obtain ⟨c, -, hc⟩ := List.mem_map.mp hresp
    rw [← hc]; rfl
  · unfold create_ai_config
    rw [if_neg (by rintro ⟨-, h2⟩; exact hurl h2), hkey]
    dsimp only
    rw [Option.getD_none, henc]
    dsimp only
    refine ⟨(upsert_ai_provider_config s data enc now new_id).2, rfl, ?_, ?_, rfl⟩
    · unfold upsert_ai_provider_config
      cases hga : get_ai_provider_config s data.provider_name with
      | none => rfl
      | some existing => rfl
    · unfold upsert_ai_provider_config
      cases hga : get_ai_provider_config s data.provider_name with
      | none => dsimp only; simp
      | some existing =>
        dsimp only
        unfold get_ai_provider_config at hga
        have hprops := List.find?_some hga
        simp only [decide_eq_true_eq] at hprops
        obtain ⟨huser, hprov⟩ := hprops
        refine List.mem_map.mpr ⟨existing, List.mem_of_find?_eq_some hga, ?_⟩
        rw [if_pos rfl]
        simp [huser, hprov]
  · obtain ⟨c, -, hc⟩ := List.mem_map.mp hresp
    rw [← hc]; rfl

/-- Witness for C10: an empty table and a config for provider `"custom"`
created with only a base URL. -/
theorem c10_has_key_always_true_witness :
    (∀ resp ∈ list_ai_configs [], resp.has_key = true) ∧
    (∃ cfg, (create_ai_config (fun _ => .ok "ENC") [] ⟨"custom", none, none, some "http://proxy"⟩
          0 "i1").2 = .ok (aiProviderConfigResponse_of cfg) ∧
      cfg.api_key_encrypted = "ENC" ∧
      cfg ∈ (create_ai_config (fun _ => .ok "ENC") [] ⟨"custom", none, none, some "http://proxy"⟩
          0 "i1").1 ∧
      (aiProviderConfigResponse_of cfg).has_key = true) ∧
    (∀ resp ∈ list_ai_configs (create_ai_config (fun _ => .ok "ENC") []
        ⟨"custom", none, none, some "http://proxy"⟩ 0 "i1").1,
      resp.has_key = true) :=
  c10_has_key_always_true [] (fun _ => .ok "ENC") ⟨"custom", none, none, some "http://proxy"⟩
    0 "i1" "ENC" rfl (by simp) rfl
